import Mathlib

/-!
Shallow embedding of `.builder/actions/pkcs11_test_setup.py` from the
aws-crt-nodejs repository, together with proofs about the claims of its
natural-language specification.

The Python module provisions a SoftHSM2 token so the PKCS#11 tests can run:
an eligibility gate on platform/architecture, installation of the emulator,
locating `libsofthsm2.so`, a minimum-version gate, token creation, a
line-oriented scanner over the `--show-slots` output that recovers the slot
of the freshly initialized token, key import, and finally publication of
four test environment variables.

Machine strings are modelled as Lean `String`s (lists of characters); the
three regular expressions used by the Python code are small enough to be
modelled exactly, including the backtracking behaviour of the version
regex. Fallible operations return `Except String`; the orchestrating `run`
method is modelled as a function from a `World` record (the observable
behaviour of the external collaborators: platform facts, installer outcome,
filesystem search result, outputs of each `softhsm2-util` invocation) to
the list of published environment variables plus a normal/raised outcome.
-/

namespace Pkcs11Setup

/-! ### Character-list helpers -/

/-- Substring test: does `needle` occur contiguously inside `hay`?
Models the Python expression `needle in hay` on strings. -/
def listContainsSub (needle : List Char) : List Char → Bool
  | [] => needle.isEmpty
  | c :: t => needle.isPrefixOf (c :: t) || listContainsSub needle t

/-- Python `needle in hay` for strings. -/
def strContains (hay needle : String) : Bool :=
  listContainsSub needle.data hay.data

/-- Strip a literal character-list marker from the front, returning the
remainder on success. -/
def stripLit : List Char → List Char → Option (List Char)
  | [], l => some l
  | _ :: _, [] => none
  | c :: cs, x :: xs => if c = x then stripLit cs xs else none

/-- Numeric value of a decimal digit character. -/
def charVal (c : Char) : Nat := c.toNat - '0'.toNat

/-- Decimal value of a digit run, as Python `int` on a digit string. -/
def digitsToNat (ds : List Char) : Nat :=
  ds.foldl (fun a c => 10 * a + charVal c) 0

/-! ### The three regular expressions of `_find_sofhsm2_token_slot`

`re.match` anchors at the beginning of the line only.  -/

/-- `re.match(r"Slot ([0-9]+)", line)`: literal `Slot `, then a nonempty
greedy digit run (the capture); the rest of the line is unconstrained. -/
def slotHeaderMatch (line : String) : Option String :=
  match line.data with
  | 'S' :: 'l' :: 'o' :: 't' :: ' ' :: rest =>
    let ds := rest.takeWhile Char.isDigit
    if ds.isEmpty then none else some (String.mk ds)
  | _ => none

/-- `re.match(r"    ([^ ].*)", line)`: exactly four spaces, then a non-space
character; the capture is everything from the fifth character on. -/
def blockHeaderMatch (line : String) : Option String :=
  match line.data with
  | ' ' :: ' ' :: ' ' :: ' ' :: c :: rest =>
    if c = ' ' then none else some (String.mk (c :: rest))
  | _ => none

/-- `re.match(r" *Initialized: *yes", line)`: leading spaces, the literal
`Initialized:`, spaces, then `yes`; the rest of the line is unconstrained. -/
def initLineMatch (line : String) : Bool :=
  match stripLit "Initialized:".data (line.data.dropWhile (· = ' ')) with
  | none => false
  | some l2 => "yes".data.isPrefixOf (l2.dropWhile (· = ' '))

/-! ### The slot-table scanner

Line-for-line model of the loop body of `_find_sofhsm2_token_slot`: the
state is the current slot id (from the last `Slot <digits>` header) and the
current indented block name. A line matching the initialized-token pattern
while the active block name contains `Token info` returns the current slot;
exhausting the input raises `No initialized tokens found`. -/

def scanLines : List String → Option String → Option String → Except String String
  | [], _, _ => .error "No initialized tokens found"
  | line :: rest, curSlot, curBlock =>
    match slotHeaderMatch line with
    | some slotId => scanLines rest (some slotId) none
    | none =>
      match curSlot with
      | none => scanLines rest none curBlock
      | some slot =>
        match blockHeaderMatch line with
        | some name => scanLines rest (some slot) (some name)
        | none =>
          match curBlock with
          | none => scanLines rest (some slot) none
          | some name =>
            if strContains name "Token info" && initLineMatch line then
              .ok slot
            else
              scanLines rest (some slot) (some name)

/-- Python `str.splitlines`, restricted to newline-terminated lines. -/
def splitLines (s : String) : List String := s.splitOn "\n"

/-- `_find_sofhsm2_token_slot`, given the `--show-slots` output text. -/
def findTokenSlot (output : String) : Except String String :=
  scanLines (splitLines output) none none

/-! ### Structured model of `--show-slots` output

The scanner consumes the human-readable slot listing. A listing is a
sequence of `Slot <id>` headers, each followed by singly-indented named
blocks (such as `Slot info:` and `Token info:`), each of whose detail lines
is more deeply indented. `renderReport` produces exactly the lines of such
a listing. -/

/-- One singly-indented block under a slot: its header name (the text after
the four-space indent, e.g. `Token info:`) and its detail lines (the text
after their eight-space indent). -/
structure InfoBlock where
  name : String
  details : List String

/-- One `Slot <id>` entry together with its indented blocks. -/
structure SlotEntry where
  id : String
  blocks : List InfoBlock

def renderBlock (b : InfoBlock) : List String :=
  ("    " ++ b.name) :: b.details.map (fun d => "        " ++ d)

def renderSlot (s : SlotEntry) : List String :=
  ("Slot " ++ s.id) :: s.blocks.flatMap renderBlock

def renderReport (ss : List SlotEntry) : List String :=
  "Available slots:" :: ss.flatMap renderSlot

/-- Well-formedness of a rendered block: the header name is nonempty and
does not start with a space (so the rendered line is a singly-indented
header). -/
def wfBlock (b : InfoBlock) : Bool :=
  match b.name.data with
  | [] => false
  | c :: _ => c ≠ ' '

/-- Well-formedness of a slot entry: the id is a nonempty digit string and
every block is well-formed. -/
def wfSlot (s : SlotEntry) : Bool :=
  !s.id.data.isEmpty && s.id.data.all Char.isDigit && s.blocks.all wfBlock

def wfReport (ss : List SlotEntry) : Bool := ss.all wfSlot

/-- The specification-side query: a slot holds an initialized token when
one of its blocks is named with `Token info` and contains a detail line
matching the initialized pattern. -/
def slotHasInitializedToken (s : SlotEntry) : Bool :=
  s.blocks.any (fun b => strContains b.name "Token info" && b.details.any initLineMatch)

/-- The specification-side answer: the id of the first slot, in listing
order, holding an initialized token. -/
def firstInitializedSlot (ss : List SlotEntry) : Option String :=
  (ss.find? slotHasInitializedToken).map SlotEntry.id

/-! ### The version parser

`_get_softhsm2_version` runs
`re.match('([0-9+])\\.([0-9]+).([0-9]+)', output)` and converts the three
captured groups with `int`. Note three peculiarities of that pattern,
modelled exactly: the match is anchored at the start of the output
(`re.match`); the first group is the single character class `[0-9+]`, so
the major group is one character (and `+` matches the class but then makes
`int` raise); the third separator is an unescaped `.`, matching any
character. A failed match (`None.group`) or a failed `int` conversion
raises, modelled as `none`. -/

/-- Backtracking search for the greedy `([0-9]+).([0-9]+)` tail: `k` is the
number of characters currently tried for the minor group, counting down
from the full digit run as Python backtracks. -/
def minorPatchSearch (rest : List Char) : Nat → Option (Nat × Nat)
  | 0 => none
  | k + 1 =>
    match rest.drop (k + 1) with
    | [] => minorPatchSearch rest k
    | _ :: tail =>
      let ps := tail.takeWhile Char.isDigit
      if ps.isEmpty then minorPatchSearch rest k
      else some (digitsToNat ((rest.takeWhile Char.isDigit).take (k + 1)), digitsToNat ps)

/-- The version parse of `_get_softhsm2_version`; `none` models a raised
exception (no match, or `int` failing on the `+` character). -/
def parseVersion (output : String) : Option (Nat × Nat × Nat) :=
  match output.data with
  | c0 :: c1 :: rest =>
    if (c0.isDigit || c0 = '+') && c1 = '.' then
      match minorPatchSearch rest (rest.takeWhile Char.isDigit).length with
      | none => none
      | some (minor, patch) =>
        if c0 = '+' then none else some (charVal c0, minor, patch)
    else none
  | _ => none

/-- Python tuple comparison `< (2, 2, 0)`: lexicographic order on the
(major, minor, patch) triple. -/
def versionLt (a b : Nat × Nat × Nat) : Bool :=
  decide (a.1 < b.1) ||
    (decide (a.1 = b.1) &&
      (decide (a.2.1 < b.2.1) ||
        (decide (a.2.1 = b.2.1) && decide (a.2.2 < b.2.2))))

/-! ### The eligibility gate

The first two checks of `run`: `sys.platform == 'darwin' or
sys.platform == 'win32'` disables, and otherwise
`'linux' in sys.platform and os.uname()[4][:3] == 'arm'` disables. -/

/-- `true` when provisioning proceeds past the platform/architecture gate;
`machine` is `os.uname()[4]`. -/
def platformEligible (platform machine : String) : Bool :=
  if platform = "darwin" || platform = "win32" then false
  else if strContains platform "linux" && decide (machine.data.take 3 = "arm".data) then false
  else true

/-! ### The execution helper -/

/-- Outcome of one external command: `returncode` and captured text. -/
structure ExecResult where
  exitCode : Nat
  output : String
deriving DecidableEq

/-- Modelled from the spec: the process execution capability
`exec(argv, check: bool) -> {stdout, exit_code}` with an optional
fail-on-nonzero mode — `env.shell.exec` is provided by the external
Builder package, not by this repository. With `check` set, a nonzero exit
code raises; otherwise the result is returned. -/
def shellExec (check : Bool) (r : ExecResult) : Except String ExecResult :=
  if check && decide (r.exitCode ≠ 0) then .error "command exited nonzero" else .ok r

/-- `_exec_softhsm2_util`: defaults `check` to `True` when the caller did
not pass it, runs the command, then raises when the output contains the
usage banner (old releases print usage and exit zero on invalid
arguments). -/
def execSofthsm2Util (check? : Option Bool) (r : ExecResult) : Except String ExecResult := do
  let check := check?.getD true
  let res ← shellExec check r
  if strContains res.output "Usage: softhsm2-util" then
    .error "softhsm2-util failed"
  else
    pure res

/-! ### The library locator

`_find_softhsm2_lib` walks `os.path.join(base_dir, lib_dir)` for
`lib_dir in ['lib64', 'lib']` (outer loop) and
`base_dir in ['/usr/local', '/usr', '/']` (inner loop), returning the
first file named exactly `libsofthsm2.so`. The filesystem is modelled as
the `os.walk` enumeration: for each directory a list of
`(root, files)` pairs in walk order. -/

/-- `os.path.join` for the paths this code joins: a separator is inserted
unless the left part already ends in one. -/
def pathJoin (a b : String) : String :=
  if a.data.getLast? = some '/' then a ++ b else a ++ "/" ++ b

/-- The six search directories, in the loop order of the source (outer
loop `lib64` then `lib`, inner loop the three base directories). -/
def searchDirs : List String :=
  ["lib64", "lib"].flatMap fun libDir =>
    ["/usr/local", "/usr", "/"].map fun baseDir => pathJoin baseDir libDir

/-- The inner two loops: first file named exactly `libsofthsm2.so` in the
walk enumeration of one search directory. -/
def findInWalk : List (String × List String) → Option String
  | [] => none
  | (root, files) :: rest =>
    match files.find? (fun f => f = "libsofthsm2.so") with
    | some f => some (pathJoin root f)
    | none => findInWalk rest

/-- `_find_softhsm2_lib`: `walk d` is the `os.walk` enumeration of
directory `d` (empty when the directory does not exist). -/
def findSofthsm2Lib (walk : String → List (String × List String)) : Option String :=
  go searchDirs
where
  go : List String → Option String
    | [] => none
    | d :: ds =>
      match findInWalk (walk d) with
      | some p => some p
      | none => go ds

/-- The hits of one search directory, in walk order: every file named
exactly `libsofthsm2.so`, joined to its root. -/
def dirHits (walk : String → List (String × List String)) (d : String) : List String :=
  (walk d).flatMap fun e =>
    (e.2.filter (fun f => f = "libsofthsm2.so")).map fun f => pathJoin e.1 f

/-- Specification-side flattening: every hit of the search, in search
order — directories in `searchDirs` order, walk entries in walk order,
files in listing order, keeping files named exactly `libsofthsm2.so`. -/
def allLibHits (walk : String → List (String × List String)) : List String :=
  searchDirs.flatMap (dirHits walk)

/-! ### The orchestrating `run` method

The observable behaviour of the external collaborators is a `World`:
platform facts, whether `Builder.InstallPackages(['softhsm'])` succeeds,
the result of the library search, the `ExecResult` of each
`softhsm2-util` invocation, and whether the secret fetch succeeds. `run`
returns the list of environment variables published through `_setenv`
(in publication order — exceptions do not roll back earlier
publications) together with the outcome: `Except.ok ()` for a normal
return, `Except.error` for a raised exception. -/

structure World where
  platform : String
  machine : String
  installOk : Bool
  lib : Option String
  versionResult : ExecResult
  initTokenResult : ExecResult
  showSlotsResult : ExecResult
  secretOk : Bool
  importResult : ExecResult

structure RunResult where
  published : List (String × String)
  outcome : Except String Unit

/-- `tempfile.gettempdir()` joined with `softhsm2/softhsm2.conf`. -/
def confPath : String := "/tmp/softhsm2/softhsm2.conf"

/-- The four test environment variables set at the end of `run`. -/
def testEnvVars : List String :=
  ["AWS_TEST_PKCS11_LIB", "AWS_TEST_PKCS11_PIN",
   "AWS_TEST_PKCS11_TOKEN_LABEL", "AWS_TEST_PKCS11_KEY_LABEL"]

/-- `Pkcs11TestSetup.run`, stage by stage in source order: the two
platform/architecture early returns (factored into `platformEligible`),
installer, library search, `SOFTHSM2_CONF` publication, version gate,
token creation, slot resolution, secret fetch, key import, publication
of the four test variables. -/
def run (w : World) : RunResult :=
  if !platformEligible w.platform w.machine then ⟨[], .ok ()⟩
  else if !w.installOk then ⟨[], .ok ()⟩
  else
    match w.lib with
    | none => ⟨[], .ok ()⟩
    | some libPath =>
      let env0 := [("SOFTHSM2_CONF", confPath)]
      match execSofthsm2Util none w.versionResult with
      | .error e => ⟨env0, .error e⟩
      | .ok vres =>
        match parseVersion vres.output with
        | none => ⟨env0, .error "version parse raised"⟩
        | some v =>
          if versionLt v (2, 2, 0) then ⟨env0, .ok ()⟩
          else
            match execSofthsm2Util none w.initTokenResult with
            | .error e => ⟨env0, .error e⟩
            | .ok _ =>
              match execSofthsm2Util none w.showSlotsResult with
              | .error e => ⟨env0, .error e⟩
              | .ok sres =>
                match findTokenSlot sres.output with
                | .error e => ⟨env0, .error e⟩
                | .ok _slot =>
                  if !w.secretOk then ⟨env0, .error "secret fetch raised"⟩
                  else
                    match execSofthsm2Util none w.importResult with
                    | .error e => ⟨env0, .error e⟩
                    | .ok _ =>
                      ⟨env0 ++
                        [("AWS_TEST_PKCS11_LIB", libPath),
                         ("AWS_TEST_PKCS11_PIN", "0000"),
                         ("AWS_TEST_PKCS11_TOKEN_LABEL", "my-token"),
                         ("AWS_TEST_PKCS11_KEY_LABEL", "my-key")], .ok ()⟩

/-! ### Concrete inputs used to instantiate the theorems -/

/-- A listing with two slots where only the second one (id `5`) holds an
initialized token. -/
def sampleReport : List SlotEntry :=
  [⟨"0", [⟨"Slot info:", ["Description:      SoftHSM slot ID 0x0"]⟩,
          ⟨"Token info:", ["Label:            other", "Initialized:      no"]⟩]⟩,
   ⟨"5", [⟨"Slot info:", ["Token present:    yes"]⟩,
          ⟨"Token info:", ["Label:            my-token", "Initialized:      yes"]⟩]⟩]

/-- A listing whose only `Initialized: yes` line sits inside a `Slot info`
block; the `Token info` block says `no`. -/
def sampleReportSlotInfoOnly : List SlotEntry :=
  [⟨"3", [⟨"Slot info:", ["Initialized:      yes"]⟩,
          ⟨"Token info:", ["Initialized:      no"]⟩]⟩]

/-- A world whose SoftHSM2 reports version 2.1.0: eligible platform,
installer succeeds, library found, but the version gate trips. -/
def worldOldVersion : World :=
  ⟨"linux", "x86_64", true, some "/usr/lib64/pkcs11/libsofthsm2.so",
   ⟨0, "2.1.0"⟩, ⟨0, ""⟩, ⟨0, ""⟩, true, ⟨0, ""⟩⟩

/-- A world whose installer fails. -/
def worldInstallFail : World :=
  ⟨"linux", "x86_64", false, none, ⟨0, ""⟩, ⟨0, ""⟩, ⟨0, ""⟩, true, ⟨0, ""⟩⟩

/-! ## Theorems

First the behaviour of the three regular expressions on the line shapes
produced by `renderReport`, then the correctness of the scanner by
induction over details, blocks and slots, then the claims. -/

theorem slotHeaderMatch_indent4 (s : String) : slotHeaderMatch ("    " ++ s) = none := by
  have h : ("    " ++ s).data = ' ' :: ' ' :: ' ' :: ' ' :: s.data := by
    simp [String.data_append]
  simp [slotHeaderMatch, h]

theorem slotHeaderMatch_indent8 (s : String) : slotHeaderMatch ("        " ++ s) = none := by
  have h : ("        " ++ s).data
      = ' ' :: ' ' :: ' ' :: ' ' :: ' ' :: ' ' :: ' ' :: ' ' :: s.data := by
    simp [String.data_append]
  simp [slotHeaderMatch, h]

theorem blockHeaderMatch_indent8 (s : String) : blockHeaderMatch ("        " ++ s) = none := by
  have h : ("        " ++ s).data
      = ' ' :: ' ' :: ' ' :: ' ' :: ' ' :: ' ' :: ' ' :: ' ' :: s.data := by
    simp [String.data_append]
  simp [blockHeaderMatch, h]

theorem blockHeaderMatch_header (b : String) (c : Char) (cs : List Char)
    (hd : b.data = c :: cs) (hc : c ≠ ' ') : blockHeaderMatch ("    " ++ b) = some b := by
  have h : ("    " ++ b).data = ' ' :: ' ' :: ' ' :: ' ' :: c :: cs := by
    simp [String.data_append, hd]
  simp [blockHeaderMatch, h, hc]
  exact String.ext hd.symm

theorem initLineMatch_indent8 (d : String) :
    initLineMatch ("        " ++ d) = initLineMatch d := by
  have h : ("        " ++ d).data
      = ' ' :: ' ' :: ' ' :: ' ' :: ' ' :: ' ' :: ' ' :: ' ' :: d.data := by
    simp [String.data_append]
  simp [initLineMatch, h, List.dropWhile]

theorem slotHeaderMatch_slotline (id : String) (h1 : ¬ id.data.isEmpty)
    (h2 : id.data.all Char.isDigit) : slotHeaderMatch ("Slot " ++ id) = some id := by
  have h : ("Slot " ++ id).data = 'S' :: 'l' :: 'o' :: 't' :: ' ' :: id.data := by
    simp [String.data_append]
  have htw : id.data.takeWhile Char.isDigit = id.data := by
    rw [List.takeWhile_eq_self_iff]
    intro a ha
    exact List.all_eq_true.mp h2 a ha
  simp [slotHeaderMatch, h, htw, h1]

theorem slotHeaderMatch_available : slotHeaderMatch "Available slots:" = none := by decide

theorem scan_details (ds : List String) (rest : List String) (slot name : String) :
    scanLines (ds.map (fun d => "        " ++ d) ++ rest) (some slot) (some name) =
      if strContains name "Token info" && ds.any initLineMatch then .ok slot
      else scanLines rest (some slot) (some name) := by
  induction ds with
  | nil => simp
  | cons d ds ih =>
    cases hil : initLineMatch d with
    | false =>
      simp only [List.map_cons, List.cons_append, scanLines, slotHeaderMatch_indent8,
        blockHeaderMatch_indent8, initLineMatch_indent8, hil, List.any_cons, Bool.false_or,
        Bool.and_false, Bool.false_and, if_neg, Bool.false_eq_true, not_false_eq_true]
      simpa using ih
    | true =>
      cases hts : strContains name "Token info" with
      | false =>
        simp only [List.map_cons, List.cons_append, scanLines, slotHeaderMatch_indent8,
          blockHeaderMatch_indent8, initLineMatch_indent8, hil, hts, List.any_cons]
        simpa [hts] using ih
      | true =>
        simp only [List.map_cons, List.cons_append, scanLines, slotHeaderMatch_indent8,
          blockHeaderMatch_indent8, initLineMatch_indent8, hil, hts, List.any_cons]
        simp

theorem scan_blocks (bs : List InfoBlock) (rest : List String) (slot : String)
    (cb : Option String) (hwf : bs.all wfBlock = true) :
    scanLines (bs.flatMap renderBlock ++ rest) (some slot) cb =
      if bs.any (fun b => strContains b.name "Token info" && b.details.any initLineMatch) then
        .ok slot
      else scanLines rest (some slot) (bs.foldl (fun _ b => some b.name) cb) := by
  induction bs generalizing cb with
  | nil => simp
  | cons b bs ih =>
    have hwfb : wfBlock b = true := by
      simp only [List.all_cons, Bool.and_eq_true] at hwf
      exact hwf.1
    have hwfs : bs.all wfBlock = true := by
      simp only [List.all_cons, Bool.and_eq_true] at hwf
      exact hwf.2
    obtain ⟨c, cs, hd, hc⟩ : ∃ c cs, b.name.data = c :: cs ∧ c ≠ ' ' := by
      unfold wfBlock at hwfb
      cases h : b.name.data with
      | nil => rw [h] at hwfb; simp at hwfb
      | cons c cs =>
        rw [h] at hwfb
        simp only [decide_eq_true_eq] at hwfb
        exact ⟨c, cs, rfl, by simpa using hwfb⟩
    have hbh : blockHeaderMatch ("    " ++ b.name) = some b.name :=
      blockHeaderMatch_header b.name c cs hd hc
    simp only [List.flatMap_cons, renderBlock, List.cons_append, List.append_assoc]
    simp only [scanLines, slotHeaderMatch_indent4, hbh]
    rw [scan_details]
    cases hbi : strContains b.name "Token info" && b.details.any initLineMatch with
    | true => simp [hbi]
    | false =>
      rw [ih (some b.name) hwfs]
      simp [hbi]

theorem scan_slots (ss : List SlotEntry) (cs cb : Option String)
    (hwf : wfReport ss = true) :
    scanLines (ss.flatMap renderSlot) cs cb =
      match ss.find? slotHasInitializedToken with
      | some s => .ok s.id
      | none => .error "No initialized tokens found" := by
  induction ss generalizing cs cb with
  | nil => simp [scanLines]
  | cons s ss ih =>
    have hwfs : wfSlot s = true := by
      simp only [wfReport, List.all_cons, Bool.and_eq_true] at hwf
      exact hwf.1
    have hwfr : wfReport ss = true := by
      simp only [wfReport, List.all_cons, Bool.and_eq_true] at hwf
      exact hwf.2
    simp only [wfSlot, Bool.and_eq_true, Bool.not_eq_eq_eq_not, Bool.not_true] at hwfs
    have hsh : slotHeaderMatch ("Slot " ++ s.id) = some s.id :=
      slotHeaderMatch_slotline s.id (by simp [hwfs.1.1]) hwfs.1.2
    simp only [List.flatMap_cons, renderSlot, List.cons_append, List.append_assoc]
    simp only [scanLines, hsh]
    rw [scan_blocks s.blocks _ _ none hwfs.2]
    cases hini : slotHasInitializedToken s with
    | true =>
      unfold slotHasInitializedToken at hini
      rw [List.find?_cons_of_pos _ (by simpa [slotHasInitializedToken] using hini)]
      simp [hini]
    | false =>
      unfold slotHasInitializedToken at hini
      rw [List.find?_cons_of_neg _ (by simpa [slotHasInitializedToken] using hini)]
      rw [hini]
      simp only [if_false, Bool.false_eq_true]
      exact ih _ _ hwfr

theorem scan_render (ss : List SlotEntry) (hwf : wfReport ss = true) :
    scanLines (renderReport ss) none none =
      match firstInitializedSlot ss with
      | some slotId => .ok slotId
      | none => .error "No initialized tokens found" := by
  simp only [renderReport, scanLines, slotHeaderMatch_available]
  rw [scan_slots ss none none hwf]
  unfold firstInitializedSlot
  cases ss.find? slotHasInitializedToken <;> simp

/-- C1: for every (well-formed) show-slots listing, the slot-table scan of
`_find_sofhsm2_token_slot` returns the id of the first `Slot <digits>`
block, in listing order, whose `Token info` sub-block contains an
`Initialized: yes` line; in particular when exactly one slot has such a
block it returns that slot regardless of its position. -/
theorem C1_first_initialized_slot (ss : List SlotEntry) (hwf : wfReport ss = true) :
    (scanLines (renderReport ss) none none =
      match firstInitializedSlot ss with
      | some slotId => Except.ok slotId
      | none => Except.error "No initialized tokens found")
    ∧ ∀ s0 ∈ ss, slotHasInitializedToken s0 = true →
        (∀ s1 ∈ ss, slotHasInitializedToken s1 = true → s1 = s0) →
        scanLines (renderReport ss) none none = Except.ok s0.id := by
  refine ⟨scan_render ss hwf, ?_⟩
  intro s0 hmem hini huniq
  rw [scan_render ss hwf]
  cases hf : ss.find? slotHasInitializedToken with
  | none =>
    exact absurd hini (by simpa using List.find?_eq_none.mp hf s0 hmem)
  | some s =>
    have hs : s = s0 :=
      huniq s (List.mem_of_find?_eq_some hf) (List.find?_some hf)
    simp [firstInitializedSlot, hf, hs]

theorem C1_witness :
    wfReport sampleReport = true ∧
      (scanLines (renderReport sampleReport) none none =
        match firstInitializedSlot sampleReport with
        | some slotId => Except.ok slotId
        | none => Except.error "No initialized tokens found")
      ∧ ∀ s0 ∈ sampleReport, slotHasInitializedToken s0 = true →
          (∀ s1 ∈ sampleReport, slotHasInitializedToken s1 = true → s1 = s0) →
          scanLines (renderReport sampleReport) none none = Except.ok s0.id :=
  ⟨by decide, C1_first_initialized_slot sampleReport (by decide)⟩

/-- C3: an `Initialized: yes` line observed while the active block name
does not contain `Token info` (for instance inside a `Slot info` block)
never makes the scan return; when no slot has an initialized `Token info`
block the scan errors, and any successful scan exhibits a slot with an
initialized `Token info` block. -/
theorem C3_block_scoping (ss : List SlotEntry) (hwf : wfReport ss = true) :
    ((∀ s ∈ ss, slotHasInitializedToken s = false) →
      scanLines (renderReport ss) none none =
        Except.error "No initialized tokens found")
    ∧ ∀ slotId, scanLines (renderReport ss) none none = Except.ok slotId →
        ∃ s ∈ ss, s.id = slotId ∧ slotHasInitializedToken s = true := by
  constructor
  · intro hall
    rw [scan_render ss hwf]
    have hf : ss.find? slotHasInitializedToken = none :=
      List.find?_eq_none.mpr (fun s hs => by simp [hall s hs])
    simp [firstInitializedSlot, hf]
  · intro slotId hok
    rw [scan_render ss hwf] at hok
    cases hf : ss.find? slotHasInitializedToken with
    | none => simp [firstInitializedSlot, hf] at hok
    | some s =>
      refine ⟨s, List.mem_of_find?_eq_some hf, ?_, List.find?_some hf⟩
      simp [firstInitializedSlot, hf] at hok
      exact hok

theorem C3_witness :
    wfReport sampleReportSlotInfoOnly = true ∧
      (∀ s ∈ sampleReportSlotInfoOnly, slotHasInitializedToken s = false) ∧
      scanLines (renderReport sampleReportSlotInfoOnly) none none =
        Except.error "No initialized tokens found" :=
  ⟨by decide, by decide,
    (C3_block_scoping sampleReportSlotInfoOnly (by decide)).1 (by decide)⟩

/-- C6: provisioning-broken conditions raise: a `softhsm2-util` result
whose output contains the usage banner makes `_exec_softhsm2_util` raise
even with exit code zero, and a listing in which no slot has an
initialized `Token info` block makes the slot scan raise rather than
silently disabling the tests. -/
theorem C6_broken_raises :
    (∀ (check? : Option Bool) (r : ExecResult), r.exitCode = 0 →
      strContains r.output "Usage: softhsm2-util" = true →
      execSofthsm2Util check? r = Except.error "softhsm2-util failed")
    ∧ ∀ ss : List SlotEntry, wfReport ss = true →
        (∀ s ∈ ss, slotHasInitializedToken s = false) →
        scanLines (renderReport ss) none none =
          Except.error "No initialized tokens found" := by
  constructor
  · intro check? r h0 hb
    simp [execSofthsm2Util, shellExec, h0, hb, Except.bind, Bind.bind]
  · intro ss hwf hall
    rw [scan_render ss hwf]
    have hf : ss.find? slotHasInitializedToken = none :=
      List.find?_eq_none.mpr (fun s hs => by simp [hall s hs])
    simp [firstInitializedSlot, hf]

theorem C6_witness :
    (ExecResult.mk 0 "Usage: softhsm2-util [ACTION] [OPTIONS]").exitCode = 0 ∧
      strContains (ExecResult.mk 0 "Usage: softhsm2-util [ACTION] [OPTIONS]").output
        "Usage: softhsm2-util" = true ∧
      execSofthsm2Util none (ExecResult.mk 0 "Usage: softhsm2-util [ACTION] [OPTIONS]") =
        Except.error "softhsm2-util failed" :=
  ⟨rfl, by decide,
    C6_broken_raises.1 none (ExecResult.mk 0 "Usage: softhsm2-util [ACTION] [OPTIONS]")
      rfl (by decide)⟩

/-- C4 counterexample: the claim says the triple `2.2.0` is extracted when
embedded anywhere in longer text, but `re.match` anchors at the start of
the output, so the parse raises (returns no triple) on
`softhsm2-util 2.2.0`. -/
theorem C4_counterexample : parseVersion "softhsm2-util 2.2.0" = none := by decide

/-- C4 amended: the version parse is anchored at the start of the output
and its major group is a single character, so it succeeds exactly on
outputs beginning with digit, dot, digit run, one arbitrary character,
digit run: `parse("2.2.0")` yields `(2,2,0)`, a two-digit major such as
`10.2.0` fails, and any output whose first character is neither a digit
nor `+` fails — an embedded triple is never found. -/
theorem C4_amended :
    parseVersion "2.2.0" = some (2, 2, 0)
    ∧ parseVersion "10.2.0" = none
    ∧ ∀ (c : Char) (cs : List Char), ¬ c.isDigit = true → c ≠ '+' →
        parseVersion (String.mk (c :: cs)) = none := by
  refine ⟨by decide, by decide, ?_⟩
  intro c cs hdig hplus
  cases cs with
  | nil => rfl
  | cons c1 cs1 =>
    simp [parseVersion, hdig, hplus]

theorem C4_amended_witness :
    ¬ ('v'.isDigit = true) ∧ 'v' ≠ '+' ∧
      parseVersion (String.mk ('v' :: "2.2.0".data)) = none :=
  ⟨by decide, by decide, C4_amended.2.2 'v' "2.2.0".data (by decide) (by decide)⟩

/-- C5 counterexample: the claim says the gate returns `false` for every
ARM CPU architecture including 64-bit, but the code only compares the
first three characters of the machine string with `arm`: on `aarch64`,
the canonical 64-bit ARM machine string on Linux, the gate returns
`true`, while the 32-bit `armv7l` is indeed rejected. -/
theorem C5_counterexample :
    platformEligible "linux" "aarch64" = true
    ∧ platformEligible "linux" "armv7l" = false := by decide

/-- C5 amended: the gate returns `false` exactly for the platforms
`darwin` and `win32` and for platforms containing `linux` whose machine
string starts with the three characters `arm`; every other combination
(including 64-bit ARM reporting `aarch64`, and ARM machines on other
platforms) returns `true`. -/
theorem C5_amended (platform machine : String) :
    platformEligible platform machine = false ↔
      (platform = "darwin" ∨ platform = "win32" ∨
        (strContains platform "linux" = true ∧ machine.data.take 3 = "arm".data)) := by
  by_cases hd : platform = "darwin"
  · simp [platformEligible, hd]
  · by_cases hw : platform = "win32"
    · simp [platformEligible, hd, hw]
    · by_cases hl : strContains platform "linux" = true
      · by_cases hm : machine.data.take 3 = "arm".data
        · simp [platformEligible, hd, hw, hl, hm]
        · simp [platformEligible, hd, hw, hl, hm]
      · simp only [Bool.not_eq_true] at hl
        simp [platformEligible, hd, hw, hl]

/-- C2 counterexample: the claim says no environment variable is
published before the key import succeeds, but on an eligible platform
with the library found, `run` publishes `SOFTHSM2_CONF` before the
version gate: in `worldOldVersion` the version gate trips and the run
returns normally with key import never attempted, yet `SOFTHSM2_CONF`
has been published. -/
theorem C2_counterexample :
    (run worldOldVersion).published = [("SOFTHSM2_CONF", confPath)]
    ∧ (run worldOldVersion).published ≠ []
    ∧ (run worldOldVersion).outcome = Except.ok ()
    ∧ ∀ v ∈ testEnvVars, ¬ v ∈ (run worldOldVersion).published.map Prod.fst :=
  ⟨by decide, by decide, rfl, by decide⟩

/-- C2 amended: no test environment variable (the four `AWS_TEST_PKCS11_*`
variables) is published before key import succeeds — the code does
publish `SOFTHSM2_CONF` earlier, as soon as the library is located — and
the four test variables are all-or-none: every run publishes either no
test variable at all, or `SOFTHSM2_CONF` followed by exactly the four,
the latter only when the key import command succeeded and the run
returns normally. -/
theorem C2_amended (w : World) :
    (∀ e ∈ (run w).published, e.1 = "SOFTHSM2_CONF")
    ∨ ((run w).published.map Prod.fst = "SOFTHSM2_CONF" :: testEnvVars
        ∧ (∃ r, execSofthsm2Util none w.importResult = Except.ok r)
        ∧ (run w).outcome = Except.ok ()) := by
  unfold run
  repeat' split
  any_goals (left; intro e he; simp at he; (try subst he); (try rfl); done)
  right
  refine ⟨?_, ⟨_, by assumption⟩, rfl⟩
  simp [testEnvVars]

/-- C7: the minimum-version gate is lexicographic comparison against
`(2,2,0)`: version `(2,2,0)` passes, `(2,1,0)` fails, and whenever the
parsed version is strictly below the minimum the run stops normally
(tests disabled, only `SOFTHSM2_CONF` published) instead of raising. -/
theorem C7_version_gate (w : World) (r : ExecResult) (v : Nat × Nat × Nat)
    (hplat : platformEligible w.platform w.machine = true)
    (hinst : w.installOk = true)
    (hexec : execSofthsm2Util none w.versionResult = Except.ok r)
    (hparse : parseVersion r.output = some v)
    (hlt : versionLt v (2, 2, 0) = true) :
    versionLt (2, 2, 0) (2, 2, 0) = false
    ∧ versionLt (2, 1, 0) (2, 2, 0) = true
    ∧ (run w).outcome = Except.ok ()
    ∧ ∀ v0 ∈ testEnvVars, ¬ v0 ∈ (run w).published.map Prod.fst := by
  refine ⟨by decide, by decide, ?_, ?_⟩ <;>
    cases hl : w.lib <;>
      simp [run, hplat, hinst, hl, hexec, hparse, hlt, testEnvVars]

theorem C7_witness :
    platformEligible worldOldVersion.platform worldOldVersion.machine = true
    ∧ worldOldVersion.installOk = true
    ∧ execSofthsm2Util none worldOldVersion.versionResult =
        Except.ok (ExecResult.mk 0 "2.1.0")
    ∧ parseVersion (ExecResult.mk 0 "2.1.0").output = some (2, 1, 0)
    ∧ versionLt (2, 1, 0) (2, 2, 0) = true
    ∧ (run worldOldVersion).outcome = Except.ok ()
    ∧ ∀ v0 ∈ testEnvVars, ¬ v0 ∈ (run worldOldVersion).published.map Prod.fst :=
  ⟨by decide, rfl, rfl, by decide, by decide,
    (C7_version_gate worldOldVersion (ExecResult.mk 0 "2.1.0") (2, 1, 0)
        (by decide) rfl rfl (by decide) (by decide)).2.2.1,
    (C7_version_gate worldOldVersion (ExecResult.mk 0 "2.1.0") (2, 1, 0)
        (by decide) rfl rfl (by decide) (by decide)).2.2.2⟩

/-- C8: every environment-unsupported condition — ineligible platform or
architecture, installer failure, shared library not found, or a version
parsed below the minimum — makes `run` return normally (no exception)
with none of the four test environment variables published. -/
theorem C8_unsupported_is_graceful (w : World)
    (h : platformEligible w.platform w.machine = false
      ∨ w.installOk = false
      ∨ w.lib = none
      ∨ (∃ r v, execSofthsm2Util none w.versionResult = Except.ok r
          ∧ parseVersion r.output = some v ∧ versionLt v (2, 2, 0) = true)) :
    (run w).outcome = Except.ok ()
    ∧ ∀ v0 ∈ testEnvVars, ¬ v0 ∈ (run w).published.map Prod.fst := by
  cases hp : platformEligible w.platform w.machine with
  | false => constructor <;> simp [run, hp, testEnvVars]
  | true =>
    cases hi : w.installOk with
    | false => constructor <;> simp [run, hp, hi, testEnvVars]
    | true =>
      cases hl : w.lib with
      | none => constructor <;> simp [run, hp, hi, hl, testEnvVars]
      | some libPath =>
        rcases h with h | h | h | ⟨r, v, he, hv, hlt⟩
        · rw [hp] at h; cases h
        · rw [hi] at h; cases h
        · rw [hl] at h; cases h
        · constructor <;> simp [run, hp, hi, hl, he, hv, hlt, testEnvVars]

theorem C8_witness :
    worldInstallFail.installOk = false
    ∧ (run worldInstallFail).outcome = Except.ok ()
    ∧ ∀ v0 ∈ testEnvVars, ¬ v0 ∈ (run worldInstallFail).published.map Prod.fst :=
  ⟨rfl, (C8_unsupported_is_graceful worldInstallFail (Or.inr (Or.inl rfl))).1,
    (C8_unsupported_is_graceful worldInstallFail (Or.inr (Or.inl rfl))).2⟩

theorem head?_append_or {α : Type} (l l2 : List α) :
    (l ++ l2).head? = l.head?.or l2.head? := by
  cases l <;> rfl

theorem filter_head?_eq_find? {α : Type} (p : α → Bool) (l : List α) :
    (l.filter p).head? = l.find? p := by
  induction l with
  | nil => rfl
  | cons a l ih =>
    cases hp : p a with
    | true => simp [List.filter_cons, List.find?_cons, hp]
    | false => simp [List.filter_cons, List.find?_cons, hp, ih]

theorem findInWalk_eq (entries : List (String × List String)) :
    findInWalk entries =
      (entries.flatMap fun e =>
        (e.2.filter (fun f => f = "libsofthsm2.so")).map fun f => pathJoin e.1 f).head? := by
  induction entries with
  | nil => rfl
  | cons e rest ih =>
    rw [List.flatMap_cons, head?_append_or, ← ih]
    cases hf : e.2.find? (fun f => f = "libsofthsm2.so") with
    | some f =>
      have hh : (e.2.filter (fun f => f = "libsofthsm2.so")).head? = some f := by
        rw [filter_head?_eq_find?, hf]
      simp [findInWalk, hf, List.head?_map, hh, Option.or]
    | none =>
      have hh : (e.2.filter (fun f => f = "libsofthsm2.so")).head? = none := by
        rw [filter_head?_eq_find?, hf]
      simp [findInWalk, hf, List.head?_map, hh, Option.or]

theorem findSofthsm2Lib_go_eq (walk : String → List (String × List String))
    (ds : List String) :
    findSofthsm2Lib.go walk ds = (ds.flatMap (dirHits walk)).head? := by
  induction ds with
  | nil => rfl
  | cons d ds ih =>
    rw [List.flatMap_cons, head?_append_or, ← ih]
    have hd : dirHits walk d =
        (walk d).flatMap fun e =>
          (e.2.filter (fun f => f = "libsofthsm2.so")).map fun f => pathJoin e.1 f := rfl
    cases h : findInWalk (walk d) with
    | some p =>
      have : (dirHits walk d).head? = some p := by rw [hd, ← findInWalk_eq, h]
      simp [findSofthsm2Lib.go, h, this, Option.or]
    | none =>
      have : (dirHits walk d).head? = none := by rw [hd, ← findInWalk_eq, h]
      simp [findSofthsm2Lib.go, h, this, Option.or]

/-- C9: the library locator searches exactly the six directories, every
`lib64` directory before any `lib` directory, and returns the first file
named exactly `libsofthsm2.so` in that search order; when no directory
contains such a file it returns `none` rather than an error. -/
theorem C9_library_locator (walk : String → List (String × List String)) :
    findSofthsm2Lib walk = (allLibHits walk).head?
    ∧ searchDirs = ["/usr/local/lib64", "/usr/lib64", "/lib64",
        "/usr/local/lib", "/usr/lib", "/lib"]
    ∧ (allLibHits walk = [] → findSofthsm2Lib walk = none) := by
  have hgo : findSofthsm2Lib walk = (allLibHits walk).head? :=
    findSofthsm2Lib_go_eq walk searchDirs
  refine ⟨hgo, by decide, fun h => ?_⟩
  rw [hgo, h]
  rfl

theorem C9_witness :
    allLibHits (fun _ => []) = [] ∧ findSofthsm2Lib (fun _ => []) = none :=
  ⟨rfl, (C9_library_locator (fun _ => [])).2.2 rfl⟩

/-- C10: every invocation through `_exec_softhsm2_util` runs with
fail-on-nonzero-exit enabled by default: unless the caller explicitly
passes `check=False`, a nonzero exit code raises rather than returning a
result. -/
theorem C10_check_defaults_on (check? : Option Bool) (r : ExecResult)
    (hc : check? ≠ some false) (hr : r.exitCode ≠ 0) :
    execSofthsm2Util check? r = Except.error "command exited nonzero" := by
  have hcheck : check?.getD true = true := by
    cases check? with
    | none => rfl
    | some b =>
      cases b with
      | false => exact absurd rfl hc
      | true => rfl
  simp [execSofthsm2Util, shellExec, hcheck, hr, Except.bind, Bind.bind]

theorem C10_witness :
    (none : Option Bool) ≠ some false ∧ (ExecResult.mk 1 "").exitCode ≠ 0 ∧
      execSofthsm2Util none (ExecResult.mk 1 "") = Except.error "command exited nonzero" :=
  ⟨by decide, by decide, C10_check_defaults_on none (ExecResult.mk 1 "") (by decide) (by decide)⟩

end Pkcs11Setup
